import Mathlib

/-!
Verification of the pagination-and-retry engine of `loc_images.py`.

The development shallowly embeds the program:

* constants of the script (`SECONDS_PER_REQUEST_LIMIT`, `MAX_WAIT_RETRY_DELAY`,
  `STARTING_RESULTS_PER_PAGE`, `BLOCKED_FILE_NAME_CHARS`);
* the pure helpers `file_name_sanitize` and `get_largest_image_url`;
* the outcome classification performed by `get_loc_response_json`
  (`classify`), the page-size split it performs on a connection reset
  (`splitStep`), and the exponential backoff applied by the `tenacity`
  library it is wrapped in (`wait_exponential`, `waitExp`);
* an interpreter `fetch` for one call of `get_loc_response_json` against a
  script (oracle) of per-request outcomes, recording every HTTP request
  issued and every timed pause as events;
* an interpreter `crawl` for the `while True` pagination loop of `main`,
  recording events, the result records handed to the per-result loop, and
  the terminal outcome.

HTTP, real time, and console output are replaced by the explicit event
trace; everything else follows the source line by line.
-/

/-- Time to wait between requests (and the minimum retry delay),
`60 / 80` seconds, from the constant `SECONDS_PER_REQUEST_LIMIT` of the
source (line 47).  Python computes the float `0.75`; the value is modeled
exactly as a rational. -/
def SECONDS_PER_REQUEST_LIMIT : ℚ := 60 / 80

/-- Max amount of time to wait between retries, source line 51. -/
def MAX_WAIT_RETRY_DELAY : ℚ := 4096

/-- Starting value of the results-per-page query parameter `c`,
source line 68. -/
def STARTING_RESULTS_PER_PAGE : Nat := 512

/-- Membership test of the set `BLOCKED_FILE_NAME_CHARS` of the source
(line 41): `{chr(i) for i in range(32)} | set(R'<>:"/\|?*')`. -/
def BLOCKED_FILE_NAME_CHARS (ch : Char) : Bool :=
  ch.toNat < 32 || ch ∈ ['<', '>', ':', '"', '/', '\\', '|', '?', '*']

/-- Model of `file_name_sanitize` (source lines 169-174):
`"".join(c for c in name if c not in BLOCKED_FILE_NAME_CHARS)`. -/
def file_name_sanitize (name : String) : String :=
  ⟨name.data.filter (fun ch => !(BLOCKED_FILE_NAME_CHARS ch))⟩

/-- A result record, with exactly the keys of the JSON object that the
source reads.  `online_format` is `Option` because the source checks key
presence first (line 369); the other keys are accessed unconditionally. -/
structure Rec where
  access_restricted : Bool
  original_format : List String
  online_format : Option (List String)
  image_url : List String
  url : String
  title : String
deriving DecidableEq

/-- Model of `get_largest_image_url` (source lines 206-225): `None` when
`result["image_url"]` is falsy (empty), else `result["image_url"][-1]`. -/
def get_largest_image_url (result : Rec) : Option String :=
  if result.image_url.isEmpty then none
  else result.image_url.getLast?

/-- A request URL, reduced to the only query component of it that the
modeled code ever reads: the effective 1-based page parameter `sp`
(`int(url.params.get("sp", 1))`, source line 144), with the default 1
already applied. -/
structure Url where
  sp : Nat
deriving DecidableEq

/-- Value of the `"next"` key of the pagination object of a response:
the key can be missing from the JSON dict (in which case the subscript
`pagination["next"]` on source line 410 raises `KeyError`), can hold
JSON `null`, or can hold the next-page URL. -/
inductive NextVal where
  | missing
  | null
  | link (u : Url)
deriving DecidableEq

/-- True when the `"next"` key is present and holds `null`. -/
def NextVal.isNull : NextVal → Bool
  | .null => true
  | _ => false

/-- True when the `"next"` key is present and holds a URL. -/
def NextVal.isLink : NextVal → Bool
  | .link _ => true
  | _ => false

/-- The fields of a parsed JSON page that `main` reads: `results`,
`pagination` (its `next`, `current` and `total` keys) and `title`
(source lines 340-345, 410). -/
structure Page where
  results : List Rec
  next : NextVal
  current : Nat
  total : Nat
  title : String
deriving DecidableEq

/-- Body of an HTTP 200 response: either valid JSON parsing to a page, or
a body on which `response.json()` (source line 165) raises. -/
inductive Body where
  | valid (page : Page)
  | invalid
deriving DecidableEq

/-- Outcome of one HTTP GET, as distinguished by the source:
`httpx.ReadTimeout` (line 112), `httpx.RemoteProtocolError` (line 114),
or a response with a status code and a body. -/
inductive Outcome where
  | readTimeout
  | connReset
  | response (code : Nat) (body : Body)
deriving DecidableEq

/-- Verdict of one attempt inside `get_loc_response_json`:
`retryable reason` for a raised `RetryableHTTPException(reason)`,
`fatal reason` for a raised `click.ClickException(reason)`,
`malformed` for a JSON decode error on a 200 body,
`split` for the `RemoteProtocolError` handler, and
`success page` for a normal return. -/
inductive Verdict where
  | success (page : Page)
  | retryable (reason : String)
  | fatal (reason : String)
  | malformed
  | split
deriving DecidableEq

/-- Classification of one attempt outcome, following
`get_loc_response_json` (source lines 108-166): a read timeout raises
`RetryableHTTPException("Read time out")`; a `RemoteProtocolError` enters
the split handler; a non-200 status raises
`RetryableHTTPException("Status code == <code>")` when the code is 429 or
in `range(500, 600)` and `click.ClickException("Non-retryable status code
<code>")` otherwise; a 200 response is parsed as JSON. -/
def classify : Outcome → Verdict
  | .readTimeout => .retryable "Read time out"
  | .connReset => .split
  | .response code body =>
    if code ≠ 200 then
      if code = 429 ∨ (500 ≤ code ∧ code < 600) then
        .retryable ("Status code == " ++ Nat.repr code)
      else
        .fatal ("Non-retryable status code " ++ Nat.repr code)
    else
      match body with
      | .valid page => .success page
      | .invalid => .malformed

/-- One page-size split (source lines 128-146), acting on the client's
results-per-page parameter `c` and the URL's 1-based page parameter `sp`:
if `c` is odd the triggering `RemoteProtocolError` is re-raised (`none`);
otherwise the client's `c` becomes `c / 2` and the reissued URL carries
`sp' = 2 * (sp - 1) + 1` (the source computes `cur_page = sp - 1`,
`new_page = cur_page * 2` and sets `sp` to `new_page + 1`). -/
def splitStep (c sp : Nat) : Option (Nat × Nat) :=
  if c % 2 ≠ 0 then none
  else some (c / 2, 2 * (sp - 1) + 1)

/-- Iterated page-size splits: `splitIter k` applies `splitStep` `k`
times, propagating failure. -/
def splitIter : Nat → Nat × Nat → Option (Nat × Nat)
  | 0, s => some s
  | k + 1, s => (splitStep s.1 s.2).bind (splitIter k)

/-- The wait computed by `tenacity.wait_exponential` (tenacity 8.2.x,
`wait.py`), the library strategy that the source configures on line 99:
`max(max(0, min), min(multiplier * exp_base ** (attempt_number - 1), max))`
with the library defaults `multiplier = 1` and `exp_base = 2`.  The
`attempt_number - 1` uses truncated subtraction exactly like Python on
attempt numbers `>= 1`. -/
def wait_exponential (multiplier mn mx expBase : ℚ) (attemptNumber : Nat) : ℚ :=
  max (max 0 mn) (min (multiplier * expBase ^ (attemptNumber - 1)) mx)

/-- The wait before the retry that follows failed attempt `n` of
`get_loc_response_json`, with the arguments of source line 99:
`wait_exponential(min=SECONDS_PER_REQUEST_LIMIT, max=MAX_WAIT_RETRY_DELAY)`. -/
def waitExp (n : Nat) : ℚ :=
  wait_exponential 1 SECONDS_PER_REQUEST_LIMIT MAX_WAIT_RETRY_DELAY 2 n

/-- An observable event of a run: an HTTP GET carrying the effective
query parameters `c` (page size, from the shared client) and `sp`
(1-based page index, from the URL), or a timed pause of `d` seconds
(a backoff wait or the inter-request sleep). -/
inductive Ev where
  | req (c sp : Nat)
  | sleep (d : ℚ)
deriving DecidableEq

/-- True for request events. -/
def Ev.isReq : Ev → Bool
  | .req _ _ => true
  | _ => false

/-- True for sleep events. -/
def Ev.isSleep : Ev → Bool
  | .sleep _ => true
  | _ => false

/-- Result of one (recursive, retried) call of `get_loc_response_json`:
a page together with the client's results-per-page parameter after the
call, one of the three fatal ends (a `ClickException` status, a JSON
decode error, or a re-raised `RemoteProtocolError` on an odd page size),
or exhaustion of the outcome script. -/
inductive FR where
  | ok (page : Page) (c : Nat)
  | fatalStatus (reason : String)
  | fatalMalformed
  | fatalOdd (c : Nat)
  | fuelOut
deriving DecidableEq

/-- Prepend an event to the trace of a fetch result. -/
def consEv (e : Ev) (r : List Ev × FR × List Outcome) : List Ev × FR × List Outcome :=
  (e :: r.1, r.2)

/-- Interpreter for one call of `get_loc_response_json(url, client)`
(source lines 96-166) against a script of per-request outcomes.
`attempt` is tenacity's attempt number for the current decorated call,
`c` the client's shared `c` parameter, `sp` the effective `sp` parameter
of the URL.  Returns the events in order, the result, and the unconsumed
script.  A retryable verdict sleeps `waitExp attempt` and retries with
the same arguments (tenacity retries `RetryableHTTPException` without
bound); an even-size split recurses through the decorator with a fresh
attempt counter, the halved client `c` and the remapped `sp`; everything
else returns at once. -/
def fetch (attempt c sp : Nat) : List Outcome → List Ev × FR × List Outcome
  | [] => ([], .fuelOut, [])
  | o :: rest =>
    match classify o with
    | .success page => ([Ev.req c sp], .ok page c, rest)
    | .retryable _ =>
      consEv (Ev.req c sp) (consEv (Ev.sleep (waitExp attempt)) (fetch (attempt + 1) c sp rest))
    | .fatal reason => ([Ev.req c sp], .fatalStatus reason, rest)
    | .malformed => ([Ev.req c sp], .fatalMalformed, rest)
    | .split =>
      match splitStep c sp with
      | none => ([Ev.req c sp], .fatalOdd c, rest)
      | some (c2, sp2) => consEv (Ev.req c sp) (fetch 1 c2 sp2 rest)

/-- Terminal state of the pagination loop of `main`: normal exit on a
`null` next cursor, one of the fatal ends of `get_loc_response_json`,
the `KeyError` raised by `pagination["next"]` when the key is missing,
or fuel exhaustion of the model. -/
inductive CrawlRes where
  | done
  | fatalStatus (reason : String)
  | fatalMalformed
  | fatalOdd (c : Nat)
  | keyError
  | fuelOut
deriving DecidableEq

/-- Interpreter for the `while True` loop of `main` (source lines
328-414), fueled by a bound on the number of pages.  Each iteration calls
`fetch`; on success the page's result records are handed (in order) to
the per-result loop, then `pagination["next"]` is inspected: a missing
key raises `KeyError`, `null` breaks the loop, and a URL causes a sleep
of `SECONDS_PER_REQUEST_LIMIT` followed by the next iteration at that
URL with the client's persisted `c`.  The per-record filtering and
output formatting inside the loop body (an external collaborator in the
spec's architecture) consume the handed stream and are not modeled. -/
def crawl : Nat → Nat → Url → List Outcome → List Ev × List Rec × CrawlRes
  | 0, _, _, _ => ([], [], .fuelOut)
  | fuel + 1, c, u, script =>
    match fetch 1 c u.sp script with
    | (evs, .ok page c2, rest) =>
      match page.next with
      | .missing => (evs, page.results, .keyError)
      | .null => (evs, page.results, .done)
      | .link u2 =>
        let r := crawl fuel c2 u2 rest
        (evs ++ Ev.sleep SECONDS_PER_REQUEST_LIMIT :: r.1, page.results ++ r.2.1, r.2.2)
    | (evs, .fatalStatus reason, _) => (evs, [], .fatalStatus reason)
    | (evs, .fatalMalformed, _) => (evs, [], .fatalMalformed)
    | (evs, .fatalOdd c0, _) => (evs, [], .fatalOdd c0)
    | (evs, .fuelOut, _) => (evs, [], .fuelOut)

/-- The outcome script of a failure-free API: every request is answered
with status 200 and a valid body. -/
def pageOutcome (p : Page) : Outcome := .response 200 (.valid p)

/-- The page-size parameter carried by an event, for request events. -/
def reqC : Ev → Option Nat
  | .req c _ => some c
  | .sleep _ => none

/-- The sequence of page-size parameters of the HTTP requests of a
trace, in order. -/
def reqCs (evs : List Ev) : List Nat := evs.filterMap reqC

/-- Relation between the page sizes of two consecutive HTTP requests of
a crawl: either unchanged, or halved from an even value by a split. -/
def SplitRel (a b : Nat) : Prop := b = a ∨ (a % 2 = 0 ∧ b = a / 2)

/-- The URL used for the iteration after a page: the served next link. -/
def nextUrl (u : Url) : NextVal → Url
  | .link v => v
  | _ => u

/-- Expected event trace of a failure-free crawl, written from the spec's
words: one request per page at the unchanged page size, with exactly one
inter-request sleep of the floor interval between consecutive requests
and none after the final page. -/
def specTrace (c : Nat) : Url → List Page → List Ev
  | _, [] => []
  | u, [_] => [Ev.req c u.sp]
  | u, p :: q :: rest =>
    Ev.req c u.sp :: Ev.sleep SECONDS_PER_REQUEST_LIMIT ::
      specTrace c (nextUrl u p.next) (q :: rest)

/-- A nonempty page chain in which every page but the last serves a next
link and the last serves a `null` next cursor. -/
def chained : List Page → Bool
  | [] => false
  | [p] => p.next.isNull
  | p :: q :: rest => p.next.isLink && chained (q :: rest)

/-- Helper: iterating the split `j` times from an even-at-every-step page
size halves the size `j` times and doubles the 0-based index `j` times
(in the 1-based `sp` encoding of the code). -/
theorem splitIter_pow (j : Nat) : ∀ P I : Nat, (∀ m, m < j → P / 2 ^ m % 2 = 0) →
    splitIter j (P, I + 1) = some (P / 2 ^ j, I * 2 ^ j + 1) := by
  induction j with
  | zero => intro P I h; simp [splitIter]
  | succ j ih =>
    intro P I h
    have h0 : P % 2 = 0 := by simpa using h 0 (by omega)
    have hstep : splitStep P (I + 1) = some (P / 2, 2 * I + 1) := by
      simp [splitStep, h0]
    have hdiv : ∀ m : Nat, P / 2 / 2 ^ m = P / 2 ^ (m + 1) := by
      intro m
      rw [Nat.div_div_eq_div_mul, pow_succ']
    have hrec := ih (P / 2) (2 * I) (fun m hm => by
      rw [hdiv m]; exact h (m + 1) (by omega))
    calc splitIter (j + 1) (P, I + 1) = splitIter j (P / 2, 2 * I + 1) := by
          simp [splitIter, hstep]
      _ = some (P / 2 / 2 ^ j, 2 * I * 2 ^ j + 1) := hrec
      _ = some (P / 2 ^ (j + 1), I * 2 ^ (j + 1) + 1) := by
          rw [hdiv j, pow_succ']; ring_nf

/-- Helper: if the page size is even after each of the first `j` halvings
then `2 ^ j` divides it. -/
theorem pow_dvd_of_even_quotients : ∀ j P : Nat, (∀ m, m < j → P / 2 ^ m % 2 = 0) →
    2 ^ j ∣ P := by
  intro j
  induction j with
  | zero => intro P _; simp
  | succ j ih =>
    intro P h
    obtain ⟨q, rfl⟩ := ih P (fun m hm => h m (by omega))
    have hq : q % 2 = 0 := by
      have := h j (by omega)
      rwa [Nat.mul_div_cancel_left _ (Nat.pos_pow_of_pos j (by omega))] at this
    obtain ⟨q2, rfl⟩ := Nat.dvd_of_mod_eq_zero hq
    exact ⟨q2, by ring⟩

/-- C1 (counterexample): the claim quantifies over every power-of-two
page size, but the power `P = 2 ^ 0 = 1` is odd, so the code re-raises
the triggering error instead of performing the split (no new page size
and no doubled index are produced), and the offset equation itself fails
at `P = 1`, `I = 1`. -/
theorem c1_counterexample :
    splitStep (2 ^ 0) 2 = none ∧ ¬ 1 * 2 ^ 0 = 2 * 1 * (2 ^ 0 / 2) := by
  decide

/-- C1 (amended): for every page size `P = 2 ^ k` with `k ≥ 1` (an even
power of two) and every 0-based page index `i`, one split yields the new
page size `P / 2 = 2 ^ (k - 1)` and reissues the request with the
1-based page parameter `sp = 2 * i + 1` (that is, `2 * (sp - 1) + 1` for
`sp = i + 1`), i.e. the 0-based index `2 * i`; the absolute item offset
is unchanged: `i * P = (2 * i) * (P / 2)`. -/
theorem c1_theorem (k i : Nat) (hk : 1 ≤ k) :
    splitStep (2 ^ k) (i + 1) = some (2 ^ k / 2, 2 * i + 1)
    ∧ 2 ^ k / 2 = 2 ^ (k - 1)
    ∧ i * 2 ^ k = 2 * i * (2 ^ k / 2) := by
  obtain ⟨m, rfl⟩ : ∃ m, k = m + 1 := ⟨k - 1, by omega⟩
  have h2 : 2 ^ (m + 1) = 2 * 2 ^ m := by rw [pow_succ]; ring
  have hhalf : 2 ^ (m + 1) / 2 = 2 ^ m := by
    rw [h2, Nat.mul_div_cancel_left _ (by omega)]
  refine ⟨?_, ?_, ?_⟩
  · simp [splitStep, h2, Nat.mul_mod_right]
  · simpa using hhalf
  · rw [hhalf, h2]; ring

/-- C1 (witness): the amended theorem evaluated at `P = 2 ^ 9 = 512`
(the starting page size of the code) and `i = 5`. -/
theorem c1_witness :
    splitStep (2 ^ 9) (5 + 1) = some (2 ^ 9 / 2, 2 * 5 + 1)
    ∧ 2 ^ 9 / 2 = 2 ^ (9 - 1)
    ∧ 5 * 2 ^ 9 = 2 * 5 * (2 ^ 9 / 2) :=
  c1_theorem 9 5 (by decide)

/-- C4: if each intermediate page size `P / 2 ^ m` for `m < k` is even,
then for every `j ≤ k` the `j`-th iterate of the split maps the state
`(P, I)` (1-based `sp = I + 1`) to `(P / 2 ^ j, I * 2 ^ j)` (1-based
`sp = I * 2 ^ j + 1`), and the absolute item offset is invariant after
every one of the steps: `(I * 2 ^ j) * (P / 2 ^ j) = I * P`. -/
theorem c4_theorem (P I k j : Nat)
    (hev : ∀ m, m < k → P / 2 ^ m % 2 = 0) (hj : j ≤ k) :
    splitIter j (P, I + 1) = some (P / 2 ^ j, I * 2 ^ j + 1)
    ∧ I * 2 ^ j * (P / 2 ^ j) = I * P := by
  have hsmall : ∀ m, m < j → P / 2 ^ m % 2 = 0 := fun m hm => hev m (by omega)
  refine ⟨splitIter_pow j P I hsmall, ?_⟩
  obtain ⟨q, rfl⟩ := pow_dvd_of_even_quotients j P hsmall
  rw [Nat.mul_div_cancel_left _ (Nat.pos_pow_of_pos j (by omega))]
  ring

/-- C4 (witness): the theorem evaluated at `P = 8`, `I = 3`, `k = j = 3`:
three splits take `(8, 3)` to `(1, 24)` and the offset stays `24`. -/
theorem c4_witness :
    splitIter 3 (8, 3 + 1) = some (8 / 2 ^ 3, 3 * 2 ^ 3 + 1)
    ∧ 3 * 2 ^ 3 * (8 / 2 ^ 3) = 3 * 8 :=
  c4_theorem 8 3 3 3 (by decide) (by decide)

/-- C9: `file_name_sanitize` output contains no blocked character, is a
subsequence of the input (so the relative order of the remaining
characters is preserved), is idempotent, and keeps every occurrence of
every non-blocked character. -/
theorem c9_theorem (s : String) (c c2 : Char)
    (hmem : c ∈ (file_name_sanitize s).data)
    (hc2 : BLOCKED_FILE_NAME_CHARS c2 = false) :
    BLOCKED_FILE_NAME_CHARS c = false
    ∧ (file_name_sanitize s).data.Sublist s.data
    ∧ file_name_sanitize (file_name_sanitize s) = file_name_sanitize s
    ∧ (file_name_sanitize s).data.count c2 = s.data.count c2 := by
  refine ⟨?_, ?_, ?_, ?_⟩
  · have hm : c ∈ s.data.filter (fun ch => !(BLOCKED_FILE_NAME_CHARS ch)) := by
      simpa [file_name_sanitize] using hmem
    have h2 := (List.mem_filter.mp hm).2
    simpa using h2
  · exact List.filter_sublist (p := fun ch => !(BLOCKED_FILE_NAME_CHARS ch)) s.data
  · simp [file_name_sanitize, List.filter_filter]
  · simpa [file_name_sanitize] using List.count_filter (by simp [hc2])

/-- C9 (witness): the theorem evaluated at the string `"a<b"` with
`c = 'a'` (a character of the sanitized output) and `c2 = 'b'`. -/
theorem c9_witness :
    BLOCKED_FILE_NAME_CHARS 'a' = false
    ∧ (file_name_sanitize "a<b").data.Sublist ("a<b").data
    ∧ file_name_sanitize (file_name_sanitize "a<b") = file_name_sanitize "a<b"
    ∧ (file_name_sanitize "a<b").data.count 'b' = ("a<b").data.count 'b' :=
  c9_theorem "a<b" 'a' 'b' (by decide) (by decide)

/-- C10: `get_largest_image_url` returns `none` on a record whose
`image_url` list is empty, and returns exactly the last element of the
list on a record whose `image_url` list is nonempty. -/
theorem c10_theorem (r r2 : Rec) (l : List String) (x : String)
    (h : r.image_url = []) (h2 : r2.image_url = l ++ [x]) :
    get_largest_image_url r = none ∧ get_largest_image_url r2 = some x := by
  constructor
  · simp [get_largest_image_url, h]
  · simp [get_largest_image_url, h2, List.getLast?_concat]

/-- C10 (witness): the theorem evaluated at a record with no image URLs
and a record with two image URLs, of which the second is returned. -/
theorem c10_witness :
    get_largest_image_url
      { access_restricted := false, original_format := [], online_format := none,
        image_url := [], url := "", title := "" } = none
    ∧ get_largest_image_url
      { access_restricted := false, original_format := [], online_format := none,
        image_url := ["u1", "u2"], url := "", title := "" } = some "u2" :=
  c10_theorem _ _ ["u1"] "u2" (by decide) (by decide)

/-- C2 (counterexample): the claimed wait before attempt 2 is
`min(4096, 0.75 * 2^(1-1)) = 0.75` seconds, but the wait the code's
backoff actually computes after failed attempt 1 is
`max(0.75, min(1 * 2^(1-1), 4096)) = 1` second: the rate-limit floor is
the `min` clamp of `tenacity.wait_exponential`, not its multiplier. -/
theorem c2_counterexample :
    waitExp 1 = 1 ∧ min (4096 : ℚ) (3 / 4 * 2 ^ (1 - 1)) = 3 / 4
    ∧ ¬ waitExp 1 = min (4096 : ℚ) (3 / 4 * 2 ^ (1 - 1)) := by
  refine ⟨?_, by norm_num, ?_⟩ <;>
    norm_num [waitExp, wait_exponential, SECONDS_PER_REQUEST_LIMIT, MAX_WAIT_RETRY_DELAY]

/-- C2 (amended): for every failed attempt number `n ≥ 1` the wait
before attempt `n + 1`, with floor 0.75 s and ceiling 4096 s, equals
`min(4096, 2 ^ (n - 1))` — the multiplier of the exponential is 1, and
the 0.75 floor never binds because `2 ^ (n - 1) ≥ 1`; the wait sequence
is monotonically non-decreasing; and attempt 1 has no preceding wait:
the first event of a fetch is the HTTP request itself, not a pause. -/
theorem c2_theorem (m n c sp : Nat) (o : Outcome) (rest : List Outcome)
    (hm : 1 ≤ m) (hmn : m ≤ n) :
    waitExp n = min ((2 : ℚ) ^ (n - 1)) 4096
    ∧ waitExp m ≤ waitExp n
    ∧ (fetch 1 c sp (o :: rest)).1.head? = some (Ev.req c sp) := by
  have hclosed : ∀ j : Nat, waitExp j = min ((2 : ℚ) ^ (j - 1)) 4096 := by
    intro j
    have h1 : (1 : ℚ) ≤ 2 ^ (j - 1) := one_le_pow₀ (by norm_num)
    have hmin : (3 / 4 : ℚ) ≤ min ((2 : ℚ) ^ (j - 1)) 4096 :=
      le_min (by linarith) (by norm_num)
    have hsec : SECONDS_PER_REQUEST_LIMIT = (3 / 4 : ℚ) := by
      norm_num [SECONDS_PER_REQUEST_LIMIT]
    rw [waitExp, wait_exponential, hsec, MAX_WAIT_RETRY_DELAY, one_mul,
      show max (0 : ℚ) (3 / 4) = 3 / 4 from max_eq_right (by norm_num)]
    exact max_eq_right hmin
  refine ⟨hclosed n, ?_, ?_⟩
  · rw [hclosed m, hclosed n]
    exact min_le_min (pow_le_pow_right₀ (by norm_num) (by omega)) le_rfl
  · cases hcl : classify o
    case split =>
      rcases hsp : splitStep c sp with _ | ⟨c2, sp2⟩ <;> simp [fetch, hcl, hsp, consEv]
    all_goals simp [fetch, hcl, consEv]

/-- C2 (witness): the amended theorem evaluated at attempts `m = 2`,
`n = 3` and a one-outcome script. -/
theorem c2_witness :
    waitExp 3 = min ((2 : ℚ) ^ (3 - 1)) 4096
    ∧ waitExp 2 ≤ waitExp 3
    ∧ (fetch 1 512 1 (Outcome.readTimeout :: [])).1.head? = some (Ev.req 512 1) :=
  c2_theorem 2 3 512 1 Outcome.readTimeout [] (by norm_num) (by norm_num)

/-- Helper: a status of 429 or 5xx raises
`RetryableHTTPException("Status code == <code>")`. -/
theorem classify_retryable (code : Nat) (body : Body)
    (h : code = 429 ∨ (500 ≤ code ∧ code < 600)) :
    classify (Outcome.response code body)
      = Verdict.retryable ("Status code == " ++ Nat.repr code) := by
  have h200 : code ≠ 200 := by omega
  simp only [classify]
  rw [if_pos h200, if_pos h]

/-- Helper: any other non-200 status raises
`click.ClickException("Non-retryable status code <code>")`. -/
theorem classify_fatal (code : Nat) (body : Body) (h200 : code ≠ 200)
    (h429 : code ≠ 429) (h5xx : ¬(500 ≤ code ∧ code < 600)) :
    classify (Outcome.response code body)
      = Verdict.fatal ("Non-retryable status code " ++ Nat.repr code) := by
  simp only [classify]
  rw [if_pos h200, if_neg (by omega)]

/-- C3: a connection reset while the current page size is odd re-raises
the triggering `RemoteProtocolError`: the fetch ends at once in the
fatal odd-split state having issued exactly the one triggering request
(the rest of the outcome script is untouched, so no further HTTP request
is issued), the error is not retried, and the crawl loop terminates in
the same fatal state with no records handed on. -/
theorem c3_theorem (c sp fuel : Nat) (u : Url) (rest : List Outcome)
    (hodd : c % 2 = 1) :
    fetch 1 c sp (Outcome.connReset :: rest) = ([Ev.req c sp], FR.fatalOdd c, rest)
    ∧ crawl (fuel + 1) c u (Outcome.connReset :: rest)
        = ([Ev.req c u.sp], [], CrawlRes.fatalOdd c) := by
  have hf : ∀ sp2, fetch 1 c sp2 (Outcome.connReset :: rest)
      = ([Ev.req c sp2], FR.fatalOdd c, rest) := by
    intro sp2
    simp [fetch, classify, splitStep, hodd]
  exact ⟨hf sp, by simp [crawl, hf u.sp]⟩

/-- C3 (witness): the theorem evaluated at the odd page size 15 with one
further scripted outcome that is never requested. -/
theorem c3_witness :
    fetch 1 15 1 (Outcome.connReset :: [Outcome.readTimeout])
      = ([Ev.req 15 1], FR.fatalOdd 15, [Outcome.readTimeout])
    ∧ crawl (0 + 1) 15 ⟨1⟩ (Outcome.connReset :: [Outcome.readTimeout])
        = ([Ev.req 15 1], [], CrawlRes.fatalOdd 15) :=
  c3_theorem 15 1 0 ⟨1⟩ [Outcome.readTimeout] (by decide)

/-- C5: classification of one request attempt.  A transport read timeout
raises the retryable exception; a 429 or 5xx status raises the retryable
exception whose reason contains the status code, and the fetch then
sleeps and retries; every other non-2xx status raises the fatal
`ClickException`: the fetch returns it at once after the single request
(never retried) and the crawl loop terminates in that fatal state. -/
theorem c5_theorem (code1 code2 c sp fuel : Nat) (u : Url) (b1 b2 : Body)
    (rest : List Outcome)
    (hR : code1 = 429 ∨ (500 ≤ code1 ∧ code1 < 600))
    (hF2xx : ¬(200 ≤ code2 ∧ code2 < 300)) (hF429 : code2 ≠ 429)
    (hF5xx : ¬(500 ≤ code2 ∧ code2 < 600)) :
    classify Outcome.readTimeout = Verdict.retryable "Read time out"
    ∧ classify (Outcome.response code1 b1)
        = Verdict.retryable ("Status code == " ++ Nat.repr code1)
    ∧ classify (Outcome.response code2 b2)
        = Verdict.fatal ("Non-retryable status code " ++ Nat.repr code2)
    ∧ fetch 1 c sp (Outcome.response code1 b1 :: rest)
        = (Ev.req c sp :: Ev.sleep (waitExp 1) :: (fetch 2 c sp rest).1,
           (fetch 2 c sp rest).2)
    ∧ fetch 1 c sp (Outcome.response code2 b2 :: rest)
        = ([Ev.req c sp],
           FR.fatalStatus ("Non-retryable status code " ++ Nat.repr code2), rest)
    ∧ crawl (fuel + 1) c u (Outcome.response code2 b2 :: rest)
        = ([Ev.req c u.sp], [],
           CrawlRes.fatalStatus ("Non-retryable status code " ++ Nat.repr code2)) := by
  have hcr := classify_retryable code1 b1 hR
  have hcf := classify_fatal code2 b2 (by omega) hF429 hF5xx
  have hff : ∀ sp2, fetch 1 c sp2 (Outcome.response code2 b2 :: rest)
      = ([Ev.req c sp2],
         FR.fatalStatus ("Non-retryable status code " ++ Nat.repr code2), rest) := by
    intro sp2
    simp [fetch, hcf]
  refine ⟨rfl, hcr, hcf, ?_, hff sp, ?_⟩
  · simp [fetch, hcr, consEv]
  · simp [crawl, hff u.sp]

/-- C5 (witness): the theorem evaluated at the retryable status 503 and
the fatal status 403 (the spec's own example of a terminal status). -/
theorem c5_witness :
    classify Outcome.readTimeout = Verdict.retryable "Read time out"
    ∧ classify (Outcome.response 503 Body.invalid)
        = Verdict.retryable ("Status code == " ++ Nat.repr 503)
    ∧ classify (Outcome.response 403 Body.invalid)
        = Verdict.fatal ("Non-retryable status code " ++ Nat.repr 403)
    ∧ fetch 1 512 1 (Outcome.response 503 Body.invalid :: [])
        = (Ev.req 512 1 :: Ev.sleep (waitExp 1) :: (fetch 2 512 1 []).1,
           (fetch 2 512 1 []).2)
    ∧ fetch 1 512 1 (Outcome.response 403 Body.invalid :: [])
        = ([Ev.req 512 1],
           FR.fatalStatus ("Non-retryable status code " ++ Nat.repr 403), [])
    ∧ crawl (0 + 1) 512 ⟨1⟩ (Outcome.response 403 Body.invalid :: [])
        = ([Ev.req 512 1], [],
           CrawlRes.fatalStatus ("Non-retryable status code " ++ Nat.repr 403)) :=
  c5_theorem 503 403 512 1 0 ⟨1⟩ Body.invalid Body.invalid []
    (by omega) (by omega) (by omega) (by omega)

/-- C8: a 200 response whose body is not valid JSON produces the
malformed-response verdict, a constructor distinct from both the
status-fatal and the retryable verdicts; the fetch returns the
malformed fatal state at once after the single request (never retried)
and the crawl loop terminates in that state. -/
theorem c8_theorem (c sp fuel : Nat) (u : Url) (rest : List Outcome)
    (reason : String) :
    classify (Outcome.response 200 Body.invalid) = Verdict.malformed
    ∧ Verdict.malformed ≠ Verdict.fatal reason
    ∧ Verdict.malformed ≠ Verdict.retryable reason
    ∧ fetch 1 c sp (Outcome.response 200 Body.invalid :: rest)
        = ([Ev.req c sp], FR.fatalMalformed, rest)
    ∧ crawl (fuel + 1) c u (Outcome.response 200 Body.invalid :: rest)
        = ([Ev.req c u.sp], [], CrawlRes.fatalMalformed) := by
  have hf : ∀ sp2, fetch 1 c sp2 (Outcome.response 200 Body.invalid :: rest)
      = ([Ev.req c sp2], FR.fatalMalformed, rest) := by
    intro sp2
    simp [fetch, classify]
  refine ⟨rfl, by simp, by simp, hf sp, by simp [crawl, hf u.sp]⟩

/-- Helper: a single successful request returns the page and leaves the
client's page-size parameter unchanged, consuming one scripted outcome. -/
theorem fetch_ok (a c sp : Nat) (p : Page) (rest : List Outcome) :
    fetch a c sp (pageOutcome p :: rest) = ([Ev.req c sp], FR.ok p c, rest) := by
  simp [fetch, pageOutcome, classify]

/-- Helper: over a failure-free script serving a chained page list, the
crawl loop produces exactly the spec's alternating trace, hands on the
concatenation of the pages' result lists in page order, and terminates
in the successful state. -/
theorem crawl_no_failure : ∀ (pages : List Page) (c fuel : Nat) (u : Url),
    chained pages = true → pages.length ≤ fuel →
    crawl fuel c u (pages.map pageOutcome)
      = (specTrace c u pages, (pages.map Page.results).flatten, CrawlRes.done) := by
  intro pages
  induction pages with
  | nil =>
    intro c fuel u hch _
    simp [chained] at hch
  | cons p rest ih =>
    intro c fuel u hch hlen
    obtain ⟨fuel, rfl⟩ : ∃ f, fuel = f + 1 := ⟨fuel - 1, by simp at hlen; omega⟩
    cases rest with
    | nil =>
      have hnull : p.next = NextVal.null := by
        cases hnp : p.next <;> simp [chained, NextVal.isNull, hnp] at hch
        rfl
      simp [crawl, fetch_ok, hnull, specTrace]
    | cons q rest2 =>
      rw [chained] at hch
      rw [Bool.and_eq_true] at hch
      obtain ⟨u2, hnp⟩ : ∃ u2, p.next = NextVal.link u2 := by
        cases hnp : p.next <;> rw [hnp] at hch <;>
          simp [NextVal.isLink] at hch
        exact ⟨_, rfl⟩
      have hlen2 : (q :: rest2).length ≤ fuel := by
        simp at hlen ⊢; omega
      have ihr : crawl fuel c u2 (pageOutcome q :: List.map pageOutcome rest2)
          = (specTrace c u2 (q :: rest2),
             (List.map Page.results (q :: rest2)).flatten, CrawlRes.done) := by
        simpa using ih c fuel u2 hch.2 hlen2
      simp [crawl, fetch_ok, hnp, specTrace, nextUrl, ihr]

/-- Helper: the spec trace of a failure-free crawl contains exactly one
request event per page and exactly one inter-request sleep of the floor
interval between each pair of consecutive requests (none after the final
page): `length - 1` sleeps in total, all equal to the floor. -/
theorem specTrace_filters : ∀ (pages : List Page) (c : Nat) (u : Url),
    ((specTrace c u pages).filter Ev.isReq).length = pages.length
    ∧ (specTrace c u pages).filter Ev.isSleep
        = List.replicate (pages.length - 1) (Ev.sleep SECONDS_PER_REQUEST_LIMIT) := by
  intro pages
  induction pages with
  | nil =>
    intro c u
    simp [specTrace]
  | cons p rest ih =>
    intro c u
    cases rest with
    | nil => simp [specTrace, Ev.isReq, Ev.isSleep]
    | cons q rest2 =>
      have ihr := ih c (nextUrl u p.next)
      simp [specTrace, Ev.isReq, Ev.isSleep, ihr.1, ihr.2, List.replicate_succ]

/-- C6 (counterexample): a failure-free crawl whose single page carries
no `"next"` key at all does not terminate successfully: the subscript
`pagination["next"]` raises `KeyError` and the crawl ends in the lookup
error state, so "terminates successfully when next is absent" fails. -/
theorem c6_counterexample :
    (crawl 1 512 ⟨1⟩ [pageOutcome
        { results := [], next := NextVal.missing, current := 1, total := 1,
          title := "t" }]).2.2 = CrawlRes.keyError
    ∧ CrawlRes.keyError ≠ CrawlRes.done :=
  ⟨rfl, by simp⟩

/-- C6 (amended): for every crawl over a synthetic failure-free API
served as a chained page list whose last page has a null (not absent)
`next` cursor, the driver hands on exactly the concatenation of all
pages' result records in page order, issues exactly one request per
page, terminates successfully on the null cursor, and performs exactly
one inter-request sleep of the floor interval between each pair of
consecutive requests and none after the final page.  (When the `next`
key is absent the crawl instead aborts with a `KeyError`.) -/
theorem c6_theorem (pages : List Page) (c fuel : Nat) (u : Url)
    (hch : chained pages = true) (hfuel : pages.length ≤ fuel) :
    crawl fuel c u (pages.map pageOutcome)
      = (specTrace c u pages, (pages.map Page.results).flatten, CrawlRes.done)
    ∧ ((specTrace c u pages).filter Ev.isReq).length = pages.length
    ∧ (specTrace c u pages).filter Ev.isSleep
        = List.replicate (pages.length - 1) (Ev.sleep SECONDS_PER_REQUEST_LIMIT) :=
  ⟨crawl_no_failure pages c fuel u hch hfuel,
   (specTrace_filters pages c u).1, (specTrace_filters pages c u).2⟩

/-- A synthetic result record for the witness crawl. -/
def witRec (s : String) : Rec :=
  { access_restricted := false, original_format := ["map"],
    online_format := some ["image"], image_url := [s], url := s, title := s }

/-- Three synthetic pages with 2, 2 and 1 result records, the first two
serving a next link and the last a null next cursor. -/
def witPages : List Page :=
  [ { results := [witRec "r1", witRec "r2"], next := NextVal.link ⟨2⟩,
      current := 1, total := 3, title := "T" },
    { results := [witRec "r3", witRec "r4"], next := NextVal.link ⟨3⟩,
      current := 2, total := 3, title := "T" },
    { results := [witRec "r5"], next := NextVal.null,
      current := 3, total := 3, title := "T" } ]

/-- C6 (witness): the amended theorem evaluated on the 3-page synthetic
API with pages of sizes 2, 2, 1 and a null next cursor on the last. -/
theorem c6_witness :
    crawl 3 512 ⟨1⟩ (witPages.map pageOutcome)
      = (specTrace 512 ⟨1⟩ witPages, (witPages.map Page.results).flatten,
         CrawlRes.done)
    ∧ ((specTrace 512 ⟨1⟩ witPages).filter Ev.isReq).length = witPages.length
    ∧ (specTrace 512 ⟨1⟩ witPages).filter Ev.isSleep
        = List.replicate (witPages.length - 1)
            (Ev.sleep SECONDS_PER_REQUEST_LIMIT) :=
  c6_theorem witPages 512 3 ⟨1⟩ (by decide) (by decide)

/-- Helper: a request event contributes its page-size parameter. -/
theorem reqCs_req (c sp : Nat) (l : List Ev) :
    reqCs (Ev.req c sp :: l) = c :: reqCs l := by
  simp [reqCs, reqC]

/-- Helper: a sleep event contributes no page-size parameter. -/
theorem reqCs_sleep (d : ℚ) (l : List Ev) :
    reqCs (Ev.sleep d :: l) = reqCs l := by
  simp [reqCs, reqC]

/-- Helper: request page sizes distribute over trace concatenation. -/
theorem reqCs_append (l1 l2 : List Ev) :
    reqCs (l1 ++ l2) = reqCs l1 ++ reqCs l2 := by
  simp [reqCs]

/-- Helper: a one-request trace yields one page-size entry. -/
theorem reqCs_single (c sp : Nat) : reqCs [Ev.req c sp] = [c] := rfl

/-- Helper: along one fetch, consecutive requests carry either the same
page size or its half (split of an even size); the first request carries
the client's current page size; and when the fetch succeeds, its last
request carries the page size the client ends with. -/
theorem fetch_sizes : ∀ (script : List Outcome) (a c sp : Nat),
    List.Chain' SplitRel (reqCs (fetch a c sp script).1)
    ∧ (∀ x, (reqCs (fetch a c sp script).1).head? = some x → x = c)
    ∧ (∀ page c2, (fetch a c sp script).2.1 = FR.ok page c2 →
        (reqCs (fetch a c sp script).1).getLast? = some c2) := by
  intro script
  induction script with
  | nil =>
    intro a c sp
    refine ⟨?_, ?_, ?_⟩ <;> simp [fetch, reqCs]
  | cons o rest ih =>
    intro a c sp
    cases hcl : classify o with
    | success page =>
      have hev : (fetch a c sp (o :: rest)).1 = [Ev.req c sp] := by
        simp [fetch, hcl]
      have hres : (fetch a c sp (o :: rest)).2.1 = FR.ok page c := by
        simp [fetch, hcl]
      refine ⟨?_, ?_, ?_⟩
      · rw [hev, reqCs_single]
        exact List.chain'_singleton c
      · intro x hx
        rw [hev, reqCs_single] at hx
        simp at hx
        omega
      · intro page2 c2 hok
        rw [hres] at hok
        cases hok
        rw [hev, reqCs_single]
        rfl
    | retryable reason =>
      have ihr := ih (a + 1) c sp
      have hev : (fetch a c sp (o :: rest)).1
          = Ev.req c sp :: Ev.sleep (waitExp a) :: (fetch (a + 1) c sp rest).1 := by
        simp [fetch, hcl, consEv]
      have hres : (fetch a c sp (o :: rest)).2.1 = (fetch (a + 1) c sp rest).2.1 := by
        simp [fetch, hcl, consEv]
      refine ⟨?_, ?_, ?_⟩
      · rw [hev, reqCs_req, reqCs_sleep]
        refine List.chain'_cons'.mpr ⟨?_, ihr.1⟩
        intro y hy
        have hyc := ihr.2.1 y (Option.mem_def.mp hy)
        exact Or.inl hyc
      · intro x hx
        rw [hev, reqCs_req, reqCs_sleep] at hx
        simp at hx
        omega
      · intro page c2 hok
        rw [hres] at hok
        have hlast := ihr.2.2 page c2 hok
        rw [hev, reqCs_req, reqCs_sleep]
        cases hR : reqCs (fetch (a + 1) c sp rest).1 with
        | nil => rw [hR] at hlast; simp at hlast
        | cons z zs =>
          rw [hR] at hlast
          rw [List.getLast?_cons_cons]
          exact hlast
    | fatal reason =>
      have hev : (fetch a c sp (o :: rest)).1 = [Ev.req c sp] := by
        simp [fetch, hcl]
      have hres : (fetch a c sp (o :: rest)).2.1 = FR.fatalStatus reason := by
        simp [fetch, hcl]
      refine ⟨?_, ?_, ?_⟩
      · rw [hev, reqCs_single]
        exact List.chain'_singleton c
      · intro x hx
        rw [hev, reqCs_single] at hx
        simp at hx
        omega
      · intro page c2 hok
        rw [hres] at hok
        simp at hok
    | malformed =>
      have hev : (fetch a c sp (o :: rest)).1 = [Ev.req c sp] := by
        simp [fetch, hcl]
      have hres : (fetch a c sp (o :: rest)).2.1 = FR.fatalMalformed := by
        simp [fetch, hcl]
      refine ⟨?_, ?_, ?_⟩
      · rw [hev, reqCs_single]
        exact List.chain'_singleton c
      · intro x hx
        rw [hev, reqCs_single] at hx
        simp at hx
        omega
      · intro page c2 hok
        rw [hres] at hok
        simp at hok
    | split =>
      rcases hsp : splitStep c sp with _ | ⟨c2, sp2⟩
      · have hev : (fetch a c sp (o :: rest)).1 = [Ev.req c sp] := by
          simp [fetch, hcl, hsp]
        have hres : (fetch a c sp (o :: rest)).2.1 = FR.fatalOdd c := by
          simp [fetch, hcl, hsp]
        refine ⟨?_, ?_, ?_⟩
        · rw [hev, reqCs_single]
          exact List.chain'_singleton c
        · intro x hx
          rw [hev, reqCs_single] at hx
          simp at hx
          omega
        · intro page c2 hok
          rw [hres] at hok
          simp at hok
      · have hpair : c % 2 = 0 ∧ c2 = c / 2 := by
          by_cases h : c % 2 = 0
          · refine ⟨h, ?_⟩
            simp [splitStep, h] at hsp
            exact hsp.1.symm
          · simp [splitStep, h] at hsp
        have ihr := ih 1 c2 sp2
        have hev : (fetch a c sp (o :: rest)).1
            = Ev.req c sp :: (fetch 1 c2 sp2 rest).1 := by
          simp [fetch, hcl, hsp, consEv]
        have hres : (fetch a c sp (o :: rest)).2.1 = (fetch 1 c2 sp2 rest).2.1 := by
          simp [fetch, hcl, hsp, consEv]
        refine ⟨?_, ?_, ?_⟩
        · rw [hev, reqCs_req]
          refine List.chain'_cons'.mpr ⟨?_, ihr.1⟩
          intro y hy
          have hyc := ihr.2.1 y (Option.mem_def.mp hy)
          right
          refine ⟨hpair.1, ?_⟩
          rw [hyc]
          exact hpair.2
        · intro x hx
          rw [hev, reqCs_req] at hx
          simp at hx
          omega
        · intro page c3 hok
          rw [hres] at hok
          have hlast := ihr.2.2 page c3 hok
          rw [hev, reqCs_req]
          cases hR : reqCs (fetch 1 c2 sp2 rest).1 with
          | nil => rw [hR] at hlast; simp at hlast
          | cons z zs =>
            rw [hR] at hlast
            rw [List.getLast?_cons_cons]
            exact hlast

/-- Helper: along a whole crawl, consecutive requests carry either the
same page size or its half, and the first request carries the client's
current page size. -/
theorem crawl_sizes : ∀ (fuel c : Nat) (u : Url) (script : List Outcome),
    List.Chain' SplitRel (reqCs (crawl fuel c u script).1)
    ∧ (∀ x, (reqCs (crawl fuel c u script).1).head? = some x → x = c) := by
  intro fuel
  induction fuel with
  | zero =>
    intro c u script
    refine ⟨?_, ?_⟩ <;> simp [crawl, reqCs]
  | succ fuel ih =>
    intro c u script
    have hF := fetch_sizes script 1 c u.sp
    rcases hfe : fetch 1 c u.sp script with ⟨evs, r, rest⟩
    rw [hfe] at hF
    cases r with
    | ok page c2 =>
      have hchain : List.Chain' SplitRel (reqCs evs) := hF.1
      have hhead : ∀ x, (reqCs evs).head? = some x → x = c := hF.2.1
      have hlast : (reqCs evs).getLast? = some c2 := hF.2.2 page c2 rfl
      cases hnx : page.next with
      | missing =>
        have hc : crawl (fuel + 1) c u script = (evs, page.results, CrawlRes.keyError) := by
          simp [crawl, hfe, hnx]
        rw [hc]
        exact ⟨hchain, hhead⟩
      | null =>
        have hc : crawl (fuel + 1) c u script = (evs, page.results, CrawlRes.done) := by
          simp [crawl, hfe, hnx]
        rw [hc]
        exact ⟨hchain, hhead⟩
      | link u2 =>
        have hc : crawl (fuel + 1) c u script
            = (evs ++ Ev.sleep SECONDS_PER_REQUEST_LIMIT :: (crawl fuel c2 u2 rest).1,
               page.results ++ (crawl fuel c2 u2 rest).2.1,
               (crawl fuel c2 u2 rest).2.2) := by
          simp [crawl, hfe, hnx]
        rw [hc]
        have ihr := ih c2 u2 rest
        have hsplit : reqCs (evs ++ Ev.sleep SECONDS_PER_REQUEST_LIMIT :: (crawl fuel c2 u2 rest).1)
            = reqCs evs ++ reqCs (crawl fuel c2 u2 rest).1 := by
          rw [reqCs_append, reqCs_sleep]
        constructor
        · rw [hsplit]
          refine List.chain'_append.mpr ⟨hchain, ihr.1, ?_⟩
          intro x hx y hy
          have hx2 : x = c2 := by
            have := Option.mem_def.mp hx
            rw [hlast] at this
            simpa using this.symm
          have hy2 : y = c2 := ihr.2 y (Option.mem_def.mp hy)
          rw [hx2, hy2]
          exact Or.inl rfl
        · intro x hx
          rw [hsplit] at hx
          cases hR : reqCs evs with
          | nil =>
            rw [hR] at hlast
            simp at hlast
          | cons z zs =>
            rw [hR] at hx
            simp at hx
            have hz : z = c := hhead z (by rw [hR]; rfl)
            omega
    | fatalStatus reason =>
      have hc : crawl (fuel + 1) c u script = (evs, [], CrawlRes.fatalStatus reason) := by
        simp [crawl, hfe]
      rw [hc]
      exact ⟨hF.1, hF.2.1⟩
    | fatalMalformed =>
      have hc : crawl (fuel + 1) c u script = (evs, [], CrawlRes.fatalMalformed) := by
        simp [crawl, hfe]
      rw [hc]
      exact ⟨hF.1, hF.2.1⟩
    | fatalOdd c0 =>
      have hc : crawl (fuel + 1) c u script = (evs, [], CrawlRes.fatalOdd c0) := by
        simp [crawl, hfe]
      rw [hc]
      exact ⟨hF.1, hF.2.1⟩
    | fuelOut =>
      have hc : crawl (fuel + 1) c u script = (evs, [], CrawlRes.fuelOut) := by
        simp [crawl, hfe]
      rw [hc]
      exact ⟨hF.1, hF.2.1⟩

/-- C7: over any outcome script whatsoever, the sequence of page-size
parameters carried by the HTTP requests of a crawl changes between
consecutive requests only by the split's halving of an even value (so
the rewritten value persists for the following requests), is pairwise
non-increasing (the reduction is never reverted and the page size never
increases again for the remainder of the crawl), and its first request
carries the client's current page size. -/
theorem c7_theorem (fuel c : Nat) (u : Url) (script : List Outcome) :
    List.Chain' SplitRel (reqCs (crawl fuel c u script).1)
    ∧ List.Pairwise (· ≥ ·) (reqCs (crawl fuel c u script).1)
    ∧ (∀ x, (reqCs (crawl fuel c u script).1).head? = some x → x = c) := by
  have h := crawl_sizes fuel c u script
  refine ⟨h.1, ?_, h.2⟩
  have hge : List.Chain' (· ≥ ·) (reqCs (crawl fuel c u script).1) := by
    refine List.Chain'.imp ?_ h.1
    intro a b hab
    rcases hab with rfl | ⟨_, rfl⟩
    · exact le_rfl
    · exact Nat.div_le_self a 2
  exact List.chain'_iff_pairwise.mp hge
